import Mathlib

/-
  Verification of the `.ts` file parser `load_from_tsfile_to_dataframe`
  from `create_bundle.py` (wildboar-foundation/datasets).

  The parser is embedded shallowly: Python strings are modelled as
  `List Char`, the per-line mutable scan state as explicit records, and
  Python exceptions as an error type threaded through `Except`.
-/

set_option maxRecDepth 20000

/-- Characters treated as whitespace by Python `str.strip` / `str.isspace`
(the ASCII whitespace set). -/
def pyIsSpace (c : Char) : Bool :=
  c == ' ' || c == '\t' || c == '\n' || c == '\r' || c == '\x0b' || c == '\x0c'

/-- ASCII lower-casing of one character, as Python `str.lower` acts on
the ASCII range (the files processed are ASCII). -/
def asciiLower (c : Char) : Char :=
  if 'A' ≤ c ∧ c ≤ 'Z' then Char.ofNat (c.toNat + 32) else c

/-- Python `str.lower` on a character list. -/
def lowerChars (l : List Char) : List Char := l.map asciiLower

/-- Python `str.strip`: drop whitespace from both ends. -/
def pyStrip (l : List Char) : List Char :=
  ((l.dropWhile pyIsSpace).reverse.dropWhile pyIsSpace).reverse

/-- Python `str.replace("?", repl)`: every occurrence of the one-character
pattern is replaced by `repl`. -/
def pyReplaceQ (repl : List Char) (l : List Char) : List Char :=
  l.flatMap (fun c => if c = '?' then repl else [c])

/-- Python `str.split(sep)` for a one-character separator: keeps empty
pieces, yields one piece more than the number of separators. -/
def pySplit (sep : Char) : List Char → List (List Char)
  | [] => [[]]
  | c :: rest =>
    match pySplit sep rest with
    | [] => [[]]
    | h :: t => if c = sep then [] :: h :: t else (c :: h) :: t

/-- Join pieces with a one-character separator (inverse of `pySplit` on
separator-free pieces). -/
def joinSep (sep : Char) : List (List Char) → List Char
  | [] => []
  | [x] => x
  | x :: xs => x ++ sep :: joinSep sep xs

/-- Numeric value of a digit string. -/
def digitsVal (l : List Char) : Nat := l.foldl (fun a c => a * 10 + (c.toNat - 48)) 0

/-- Models Python `int(str)`: optional surrounding whitespace, optional
sign, then a nonempty run of decimal digits (underscore separators are not
modelled; none occur in `.ts` files). -/
def parseIntChars (l : List Char) : Option Int :=
  let t := pyStrip l
  let p : Int × List Char :=
    match t with
    | '+' :: r => (1, r)
    | '-' :: r => (-1, r)
    | _ => (1, t)
  if p.2 ≠ [] ∧ p.2.all (·.isDigit) then some (p.1 * (digitsVal p.2 : Int)) else none

/-- A Python float value: a finite rational, `nan`, or a signed infinity.
Observations in `.ts` files are produced by `float(...)`. -/
inductive PyFloat where
  | finite (q : Rat)
  | nan
  | inf (neg : Bool)
deriving DecidableEq, Repr

/-- Decimal part of Python `float(str)`: optional sign, digits with an
optional fractional part and an optional exponent (input already
lower-cased). -/
def parseDecimal (l : List Char) : Option Rat :=
  let p : Int × List Char :=
    match l with
    | '+' :: r => (1, r)
    | '-' :: r => (-1, r)
    | _ => (1, l)
  let ip := p.2.takeWhile (·.isDigit)
  let l1 := p.2.dropWhile (·.isDigit)
  let q : List Char × List Char :=
    match l1 with
    | '.' :: r => (r.takeWhile (·.isDigit), r.dropWhile (·.isDigit))
    | _ => ([], l1)
  if ip = [] ∧ q.1 = [] then none else
  let num : Int := p.1 * ((digitsVal ip * 10 ^ q.1.length + digitsVal q.1 : Nat) : Int)
  match q.2 with
  | [] => some (mkRat num (10 ^ q.1.length))
  | 'e' :: r =>
    let es : Bool × List Char :=
      match r with
      | '+' :: r2 => (false, r2)
      | '-' :: r2 => (true, r2)
      | _ => (false, r)
    if es.2 ≠ [] ∧ es.2.all (·.isDigit) then
      let e := digitsVal es.2
      if es.1 then some (mkRat num (10 ^ (q.1.length + e)))
      else some (mkRat (num * (10 : Int) ^ e) (10 ^ q.1.length))
    else none
  | _ => none

/-- Models Python `float(str)`: surrounding whitespace stripped,
case-insensitive `nan` / `inf` / `infinity`, otherwise a signed decimal
with optional fraction and exponent. -/
def parseFloatChars (l : List Char) : Option PyFloat :=
  let t := lowerChars (pyStrip l)
  let p : Bool × List Char :=
    match t with
    | '+' :: r => (false, r)
    | '-' :: r => (true, r)
    | _ => (false, t)
  if p.2 = "nan".data then some .nan
  else if p.2 = "inf".data ∨ p.2 = "infinity".data then some (.inf p.1)
  else (parseDecimal t).map .finite

/-- A timestamp attached to an observation in the timestamped branch:
either the result of `int(...)` or the stripped text kept for
`pd.DatetimeIndex`. -/
inductive PyTimestamp where
  | int (i : Int)
  | text (s : List Char)
deriving DecidableEq, Repr

/-- One cell of the resulting table: the several `pd.Series` shapes the
parser constructs. -/
inductive Series where
  | plain (data : List PyFloat)
  | emptyObject
  | emptyFloat32
  | indexed (index : List PyTimestamp) (data : List PyFloat)
  | dtIndexed (index : List (List Char)) (data : List PyFloat)
deriving DecidableEq, Repr

/-- The Python exceptions the function can raise: the typed
`TsFileParseException`, plus the untyped `ValueError` (from `float`),
`TypeError` (from `range(0, None)`) and `UnboundLocalError` escapes. -/
inductive PyErr where
  | tsFileParse (msg : String)
  | valueError (msg : String)
  | typeError (msg : String)
  | unboundLocal (name : String)
deriving DecidableEq, Repr

/-- The value returned by `load_from_tsfile_to_dataframe`: the DataFrame
columns (one per dimension, one entry per instance), with class values
either as a separate array, as an appended column, or absent. -/
inductive ParseOutput where
  | xy (x : List (List Series)) (y : List (List Char))
  | withClassColumn (x : List (List Series)) (classVals : List (List Char))
  | xOnly (x : List (List Series))
deriving DecidableEq, Repr

/-- The mutable variables of `load_from_tsfile_to_dataframe` that persist
across lines. -/
structure ParseState where
  metadataStarted : Bool := false
  dataStarted : Bool := false
  hasProblemNameTag : Bool := false
  hasTimestampsTag : Bool := false
  hasUnivariateTag : Bool := false
  hasClassLabelsTag : Bool := false
  hasDataTag : Bool := false
  timestamps : Option Bool := none
  classLabels : Option Bool := none
  classLabelList : List (List Char) := []
  previousTimestampWasInt : Option Bool := none
  prevTimestampWasTimestamp : Option Bool := none
  numDimensions : Option Nat := none
  isFirstCase : Bool := true
  instanceList : List (List Series) := []
  classValList : List (List Char) := []
  lineNum : Nat := 0
deriving DecidableEq, Repr

/-- `str(num_dimensions)` for the error message (Python prints `None` for
an unset value). -/
def optNatRepr : Option Nat → String
  | none => "None"
  | some n => toString n

/-- The `if len(instance_list) < i+1: instance_list.append([])` followed by
`instance_list[i].append(x)` pattern of the timestamped branch. -/
def instAppend (l : List (List Series)) (i : Nat) (x : Series) : List (List Series) :=
  let l2 := if l.length < i + 1 then l ++ [[]] else l
  l2.set i (l2.getD i [] ++ [x])

/-- Plain `instance_list[i].append(x)` of the non-timestamped branch. -/
def setAppend (l : List (List Series)) (i : Nat) (x : Series) : List (List Series) :=
  l.set i (l.getD i [] ++ [x])

/-- `tuple_data.rfind(",")` based split: text before the last comma and
text after it. -/
def lastCommaSplit (l : List Char) : Option (List Char × List Char) :=
  if ',' ∈ l then
    some ((l.reverse.dropWhile (· ≠ ',')).tail.reverse, (l.reverse.takeWhile (· ≠ ',')).reverse)
  else none

/-- The per-line scan state of the timestamped branch: the global parse
state plus `has_another_value`, `has_another_dimension`,
`this_line_num_dim` and the accumulators of the current dimension. -/
structure TsScan where
  st : ParseState
  hav : Bool
  had : Bool
  thisLineNumDim : Nat
  tsForDim : List PyTimestamp
  valsForDim : List PyFloat
deriving DecidableEq, Repr

/-- String content handed to `pd.DatetimeIndex` for one stored timestamp. -/
def tsText : PyTimestamp → List Char
  | .int i => (toString i).data
  | .text s => s

/-- The check at the bottom of the scanning loop: when neither another
value nor another dimension is expected, freeze or compare the number of
dimensions (source lines 563-576). -/
def checkLineDims (ln : Nat) (s : TsScan) : Except PyErr TsScan :=
  if ¬s.hav ∧ ¬s.had then
    let s2 := if s.st.numDimensions = none then
        { s with st := { s.st with numDimensions := some s.thisLineNumDim } }
      else s
    if s2.st.numDimensions ≠ some s2.thisLineNumDim then
      .error (.tsFileParse ("line " ++ toString (ln + 1) ++
        " does not have the same number of dimensions as the previous line of data"))
    else .ok s2
  else .ok s

/-- Processing of the contents of one `(timestamp,value)` tuple after its
closing parenthesis was found (source lines 385-529): split at the last
comma, parse the value with `float`, classify the timestamp, enforce
file-wide timestamp-representation consistency, lock in the
representation, and append the finished dimension when no further value
follows. -/
def processTuple (ln : Nat) (s : TsScan) (tupleData : List Char) : Except PyErr TsScan :=
  match lastCommaSplit tupleData with
  | none => .error (.tsFileParse ("dimension " ++ toString (s.thisLineNumDim + 1) ++
      " on line " ++ toString (ln + 1) ++ " contains a tuple that has no comma inside of it"))
  | some (tsRaw, valRaw) =>
    match parseFloatChars valRaw with
    | none => .error (.tsFileParse ("dimension " ++ toString (s.thisLineNumDim + 1) ++
        " on line " ++ toString (ln + 1) ++
        " contains a tuple that does not have a valid numeric value"))
    | some value =>
      let cls : Bool × Bool × PyTimestamp :=
        match parseIntChars tsRaw with
        | some i => (true, false, .int i)
        | none => (false, true, .text (pyStrip tsRaw))
      let tsIsInt := cls.1
      let tsIsTs := cls.2.1
      let ts := cls.2.2
      if ¬tsIsTs ∧ ¬tsIsInt then
        .error (.tsFileParse ("dimension " ++ toString (s.thisLineNumDim + 1) ++
          " on line " ++ toString (ln + 1) ++
          " contains a tuple that has an invalid timestamp '" ++ String.mk (pyStrip tsRaw) ++ "'"))
      else if s.st.previousTimestampWasInt = some true ∧ ¬tsIsInt then
        .error (.tsFileParse ("dimension " ++ toString (s.thisLineNumDim + 1) ++
          " on line " ++ toString (ln + 1) ++
          " contains tuples where the timestamp format is inconsistent"))
      else if s.st.prevTimestampWasTimestamp = some true ∧ ¬tsIsTs then
        .error (.tsFileParse ("dimension " ++ toString (s.thisLineNumDim + 1) ++
          " on line " ++ toString (ln + 1) ++
          " contains tuples where the timestamp format is inconsistent"))
      else
        let s := { s with tsForDim := s.tsForDim ++ [ts], valsForDim := s.valsForDim ++ [value] }
        let s := if s.st.prevTimestampWasTimestamp = none ∧ tsIsTs then
            { s with st := { s.st with prevTimestampWasTimestamp := some true,
                                       previousTimestampWasInt := some false } }
          else s
        let s := if s.st.previousTimestampWasInt = none ∧ tsIsInt then
            { s with st := { s.st with prevTimestampWasTimestamp := some false,
                                       previousTimestampWasInt := some true } }
          else s
        if ¬s.hav then
          let ser := if tsIsTs then Series.dtIndexed (s.tsForDim.map tsText) s.valsForDim
            else Series.indexed s.tsForDim s.valsForDim
          .ok { s with
                st := { s.st with
                  instanceList := instAppend s.st.instanceList s.thisLineNumDim ser },
                thisLineNumDim := s.thisLineNumDim + 1, tsForDim := [], valsForDim := [] }
        else .ok s

/-- The character-scanning `while char_num < line_len` loop of the
timestamped branch (source lines 256-576), written as a recursion over the
unread suffix of the line.  `fuel` is a structural-recursion bound; every
iteration consumes at least one character, so any `fuel` of at least the
suffix length plus one behaves as the unbounded loop (`tsLoopF_fuel`). -/
def tsLoopF (cl : Bool) (ln : Nat) : Nat → TsScan → List Char → Except PyErr TsScan
  | _, s, [] => .ok s
  | 0, s, _ :: _ => .ok s
  | fuel + 1, s, c0 :: r0 =>
    match (c0 :: r0).dropWhile pyIsSpace with
    | [] =>
      if s.hav then
        .error (.tsFileParse ("dimension " ++ toString (s.thisLineNumDim + 1) ++ " on line " ++
          toString (ln + 1) ++ " ends with a ',' that is not followed by another tuple"))
      else if s.had ∧ cl then
        .error (.tsFileParse ("dimension " ++ toString (s.thisLineNumDim + 1) ++ " on line " ++
          toString (ln + 1) ++ " ends with a ':' while it should list a class value"))
      else
        let s := if s.had ∧ ¬cl then
            { s with
              st := { s.st with
                instanceList := instAppend s.st.instanceList s.thisLineNumDim .emptyFloat32,
                numDimensions := some (s.thisLineNumDim + 1) },
              thisLineNumDim := s.thisLineNumDim + 1 }
          else s
        checkLineDims ln s
    | c :: r2 =>
      if c = ':' then
        let s := { s with
          st := { s.st with
            instanceList := instAppend s.st.instanceList s.thisLineNumDim .emptyObject },
          thisLineNumDim := s.thisLineNumDim + 1, hav := false, had := true,
          tsForDim := [], valsForDim := [] }
        match checkLineDims ln s with
        | .error e => .error e
        | .ok s2 => tsLoopF cl ln fuel s2 r2
      else if c ≠ '(' ∧ cl then
        let classVal := pyStrip (c :: r2)
        if classVal ∉ s.st.classLabelList then
          .error (.tsFileParse ("the class value '" ++ String.mk classVal ++ "' on line " ++
            toString (ln + 1) ++ " is not valid"))
        else
          let s := { s with
                     st := { s.st with classValList := s.st.classValList ++ [classVal] },
                     hav := false, had := false, tsForDim := [], valsForDim := [] }
          checkLineDims ln s
      else if c ≠ '(' then
        .error (.tsFileParse ("dimension " ++ toString (s.thisLineNumDim + 1) ++ " on line " ++
          toString (ln + 1) ++ " does not start with a '('"))
      else
        let tup := r2.takeWhile (· ≠ ')')
        match r2.dropWhile (· ≠ ')') with
        | [] =>
          .error (.tsFileParse ("dimension " ++ toString (s.thisLineNumDim + 1) ++ " on line " ++
            toString (ln + 1) ++ " does not end with a ')'"))
        | _ :: r4 =>
          let r5 := r4.dropWhile pyIsSpace
          let hhr : Bool × Bool × List Char :=
            match r5 with
            | [] => (false, false, [])
            | d :: r6 =>
              if d = ',' then (true, false, r6)
              else if d = ':' then (false, true, r6)
              else (s.hav, s.had, r6)
          match processTuple ln { s with hav := hhr.1, had := hhr.2.1 } tup with
          | .error e => .error e
          | .ok s2 =>
            match checkLineDims ln s2 with
            | .error e => .error e
            | .ok s3 => tsLoopF cl ln fuel s3 hhr.2.2

/-- One data line of the timestamped branch: run the scanning loop, then
the end-of-line validation (source lines 242-632). -/
def processTsLine (cl : Bool) (st : ParseState) (line : List Char) : Except PyErr ParseState :=
  match tsLoopF cl st.lineNum (line.length + 1) ⟨st, false, false, 0, [], []⟩ line with
  | .error e => .error e
  | .ok s =>
    if s.hav then
      .error (.tsFileParse ("dimension " ++ toString (s.thisLineNumDim + 1) ++ " on line " ++
        toString (st.lineNum + 1) ++ " ends with a ',' that is not followed by another tuple"))
    else if s.had ∧ cl then
      .error (.tsFileParse ("dimension " ++ toString (s.thisLineNumDim + 1) ++ " on line " ++
        toString (st.lineNum + 1) ++ " ends with a ':' while it should list a class value"))
    else
      let s := if s.had ∧ ¬cl then
          { s with
            st := { s.st with
              instanceList := instAppend s.st.instanceList s.thisLineNumDim .emptyObject,
              numDimensions := some (s.thisLineNumDim + 1) },
            thisLineNumDim := s.thisLineNumDim + 1 }
        else s
      if ¬s.hav ∧ s.st.numDimensions ≠ some s.thisLineNumDim then
        .error (.tsFileParse ("line " ++ toString (st.lineNum + 1) ++
          " does not have the same number of dimensions as the previous line of data"))
      else if cl ∧ s.st.classValList = [] then
        .error (.tsFileParse "the cases have no associated class values")
      else .ok s.st

/-- The body of the `for dim in range(0, num_dimensions)` loop of the
non-timestamped branch (source lines 673-682): strip the dimension text,
parse it as a comma-separated `float` list when nonempty, and append the
resulting series (or an empty object series) to the dimension's column. -/
def plainDimStep (dimensions : List (List Char)) (acc : List (List Series)) (dim : Nat) :
    Except PyErr (List (List Series)) :=
  let dimension := pyStrip (dimensions.getD dim [])
  if dimension ≠ [] then
    match (pySplit ',' dimension).mapM (fun tok =>
        match parseFloatChars tok with
        | some v => Except.ok v
        | none => Except.error (PyErr.valueError
            ("could not convert string to float: '" ++ String.mk tok ++ "'"))) with
    | .error e => .error e
    | .ok vals => .ok (setAppend acc dim (.plain vals))
  else .ok (setAppend acc dim .emptyObject)

/-- One data line of the non-timestamped branch (source lines 634-685):
split on `:`, freeze the dimension count on the first case, check it on
later cases, parse every dimension with `float`, and record the trailing
class value when labels are declared. -/
def processPlainLine (cl : Bool) (st : ParseState) (line : List Char) : Except PyErr ParseState :=
  let dimensions := pySplit ':' line
  let st := if st.isFirstCase then
      { st with
        numDimensions := some (dimensions.length - (if cl then 1 else 0)),
        instanceList := List.replicate (dimensions.length - (if cl then 1 else 0)) [],
        isFirstCase := false }
    else st
  let thisLineNumDim := dimensions.length - (if cl then 1 else 0)
  if st.numDimensions ≠ some thisLineNumDim then
    .error (.tsFileParse ("inconsistent number of dimensions. Expecting " ++
      optNatRepr st.numDimensions ++ " but have read " ++ toString thisLineNumDim))
  else
    match st.numDimensions with
    | none => .error (.typeError "'NoneType' object cannot be interpreted as an integer")
    | some nd =>
      match (List.range nd).foldlM (plainDimStep dimensions) st.instanceList with
      | .error e => .error e
      | .ok inst =>
        let st := { st with instanceList := inst }
        if cl then
          .ok { st with classValList := st.classValList ++ [pyStrip (dimensions.getD nd [])] }
        else .ok st

/-- A data line after the `@data` tag (source lines 221-685): require the
full metadata, substitute the missing-value placeholder, and dispatch on
the declared `timestamps` value. -/
def processDataLine (repl : List Char) (st : ParseState) (line : List Char) :
    Except PyErr ParseState :=
  if ¬(st.hasProblemNameTag ∧ st.hasTimestampsTag ∧ st.hasUnivariateTag ∧
       st.hasClassLabelsTag ∧ st.hasDataTag) then
    .error (.tsFileParse "a full set of metadata has not been provided before the data")
  else
    let line := pyReplaceQ repl line
    match st.timestamps with
    | none => .error (.unboundLocal "timestamps")
    | some ts =>
      match st.classLabels with
      | none => .error (.unboundLocal "class_labels")
      | some cl => if ts then processTsLine cl st line else processPlainLine cl st line

/-- Dispatch on one stripped, lower-cased, nonempty line: the metadata
tags, the `@data` transition, a data line, or (before data has started) a
silently ignored unrecognized line (source lines 87-685). -/
def processCore (repl : List Char) (st : ParseState) (line : List Char) :
    Except PyErr ParseState :=
  if line = [] then .ok st
  else if "@problemname".data.isPrefixOf line then
    if st.dataStarted then .error (.tsFileParse "metadata must come before data")
    else if (pySplit ' ' line).length = 1 then
      .error (.tsFileParse "problemname tag requires an associated value")
    else .ok { st with hasProblemNameTag := true, metadataStarted := true }
  else if "@timestamps".data.isPrefixOf line then
    if st.dataStarted then .error (.tsFileParse "metadata must come before data")
    else
      let tokens := pySplit ' ' line
      if tokens.length ≠ 2 then
        .error (.tsFileParse "timestamps tag requires an associated Boolean value")
      else if tokens.getD 1 [] = "true".data then
        .ok { st with timestamps := some true, hasTimestampsTag := true, metadataStarted := true }
      else if tokens.getD 1 [] = "false".data then
        .ok { st with timestamps := some false, hasTimestampsTag := true, metadataStarted := true }
      else .error (.tsFileParse "invalid timestamps value")
  else if "@univariate".data.isPrefixOf line then
    if st.dataStarted then .error (.tsFileParse "metadata must come before data")
    else
      let tokens := pySplit ' ' line
      if tokens.length ≠ 2 then
        .error (.tsFileParse "univariate tag requires an associated Boolean  value")
      else if tokens.getD 1 [] = "true".data ∨ tokens.getD 1 [] = "false".data then
        .ok { st with hasUnivariateTag := true, metadataStarted := true }
      else .error (.tsFileParse "invalid univariate value")
  else if "@classlabel".data.isPrefixOf line then
    if st.dataStarted then .error (.tsFileParse "metadata must come before data")
    else
      let tokens := pySplit ' ' line
      if tokens.length = 1 then
        .error (.tsFileParse "classlabel tag requires an associated Boolean  value")
      else if tokens.getD 1 [] = "true".data then
        if tokens.length = 2 then
          .error (.tsFileParse "if the classlabel tag is true then class values must be supplied")
        else
          .ok { st with
                classLabels := some true, hasClassLabelsTag := true,
                classLabelList := (tokens.drop 2).map pyStrip, metadataStarted := true }
      else if tokens.getD 1 [] = "false".data then
        .ok { st with
              classLabels := some false, hasClassLabelsTag := true,
              classLabelList := (tokens.drop 2).map pyStrip, metadataStarted := true }
      else .error (.tsFileParse "invalid classLabel value")
  else if "@data".data.isPrefixOf line then
    if line ≠ "@data".data then
      .error (.tsFileParse "data tag should not have an associated value")
    else if st.dataStarted ∧ ¬st.metadataStarted then
      .error (.tsFileParse "metadata must come before data")
    else .ok { st with hasDataTag := true, dataStarted := true }
  else if st.dataStarted then processDataLine repl st line
  else .ok st

/-- One raw input line: strip, lower-case, dispatch, and advance the line
counter (which Python advances for every line, empty ones included). -/
def processLine (repl : List Char) (st : ParseState) (raw : String) : Except PyErr ParseState :=
  match processCore repl st (lowerChars (pyStrip raw.data)) with
  | .error e => .error e
  | .ok s => .ok { s with lineNum := st.lineNum + 1 }

/-- End-of-input handling (source lines 689-733): empty-file check,
metadata completeness, data presence, DataFrame assembly and the
caller-selected packaging of the class values. -/
def finalize (returnSeparateXY : Bool) (st : ParseState) : Except PyErr ParseOutput :=
  if st.lineNum ≠ 0 then
    if st.metadataStarted ∧ ¬(st.hasProblemNameTag ∧ st.hasTimestampsTag ∧
        st.hasUnivariateTag ∧ st.hasClassLabelsTag ∧ st.hasDataTag) then
      .error (.tsFileParse "metadata incomplete")
    else if st.metadataStarted ∧ ¬st.dataStarted then
      .error (.tsFileParse "file contained metadata but no data")
    else if st.metadataStarted ∧ st.dataStarted ∧ st.instanceList = [] then
      .error (.tsFileParse "file contained metadata but no data")
    else
      match st.numDimensions with
      | none => .error (.typeError "'NoneType' object cannot be interpreted as an integer")
      | some nd =>
        let x := (List.range nd).map (fun d => st.instanceList.getD d [])
        match st.classLabels with
        | none => .error (.unboundLocal "class_labels")
        | some cl =>
          if cl then
            if returnSeparateXY then .ok (.xy x st.classValList)
            else .ok (.withClassColumn x st.classValList)
          else .ok (.xOnly x)
  else .error (.tsFileParse "empty file")

/-- The whole parser `load_from_tsfile_to_dataframe`, consuming the
decoded lines of the file. -/
def load_from_tsfile_to_dataframe (lines : List String) (returnSeparateXY : Bool)
    (replaceMissingValsWith : String) : Except PyErr ParseOutput :=
  match lines.foldlM (processLine replaceMissingValsWith.data) {} with
  | .error e => .error e
  | .ok st => finalize returnSeparateXY st

instance : DecidableEq (Except PyErr ParseOutput) := fun a b =>
  match a, b with
  | .error e1, .error e2 =>
    if h : e1 = e2 then .isTrue (by rw [h])
    else .isFalse (by intro hc; injection hc; contradiction)
  | .error _, .ok _ => .isFalse (by intro hc; exact Except.noConfusion hc)
  | .ok _, .error _ => .isFalse (by intro hc; exact Except.noConfusion hc)
  | .ok v1, .ok v2 =>
    if h : v1 = v2 then .isTrue (by rw [h])
    else .isFalse (by intro hc; injection hc; contradiction)

/-- The spec's worked example file (claim C4). -/
def exampleLines : List String :=
  ["@problemname X", "@timestamps false", "@univariate true", "@classlabel true A B",
   "@data", "1,2,3:A", "4,5,6:B"]

/-- The timestamped data line with `k` dimensions, each the single tuple
`(0,1)`, used to quantify the dimension-mismatch property over arbitrary
dimension counts in the timestamped branch. -/
def tsDimsChars : Nat → List Char
  | 0 => []
  | 1 => ['(', '0', ',', '1', ')']
  | k + 2 => '(' :: '0' :: ',' :: '1' :: ')' :: ':' :: tsDimsChars (k + 1)

/-- A character allowed inside a well-formed non-timestamped data token:
not a separator, placeholder, tag marker or whitespace, and stable under
lower-casing. -/
def goodChar (c : Char) : Bool :=
  c != ':' && c != '?' && c != '@' && !pyIsSpace c && asciiLower c == c

/-- A well-formed dimension segment: nonempty, made of good characters,
every comma-separated token accepted by `float`. -/
def goodSeg (s : List Char) : Bool :=
  !s.isEmpty && s.all goodChar && (pySplit ',' s).all (fun tok => (parseFloatChars tok).isSome)

/-- A well-formed vocabulary token: nonempty and made of good characters. -/
def goodVocabTok (v : List Char) : Bool := !v.isEmpty && v.all goodChar

/-- A well-formed non-timestamped data line: the dimension segments joined
by `:` with the trailing class label. -/
def plainDataLine (segs : List (List Char)) (lab : List Char) : String :=
  String.mk (joinSep ':' (segs ++ [lab]))

/-- The `@classlabel true ...` metadata line declaring a vocabulary. -/
def classLabelLine (vocab : List (List Char)) : String :=
  String.mk ("@classlabel true ".data ++ joinSep ' ' vocab)

/-- C4 counterexample: the example file does not parse to the label array
`["A", "B"]` claimed by the spec, because every line is lower-cased before
being interpreted. -/
theorem claim_C4_counterexample :
    load_from_tsfile_to_dataframe exampleLines true "NaN" ≠
      .ok (.xy [[.plain [.finite 1, .finite 2, .finite 3],
                 .plain [.finite 4, .finite 5, .finite 6]]]
        ["A".data, "B".data]) := by
  decide

/-- C4 amended: the example file parses to a 2-row, 1-dimension table with
series `[1,2,3]` and `[4,5,6]`, and the label array is the lower-cased
`["a", "b"]`. -/
theorem claim_C4_thm :
    load_from_tsfile_to_dataframe exampleLines true "NaN" =
      .ok (.xy [[.plain [.finite 1, .finite 2, .finite 3],
                 .plain [.finite 4, .finite 5, .finite 6]]]
        ["a".data, "b".data]) := by
  decide

/-- C3: an input consisting only of a bare `@data` line, and an input of
only blank lines, both escape with an untyped `TypeError` from
`range(0, None)` instead of the typed `TsFileParseException` the spec
requires for every malformed file. -/
theorem claim_C3_thm :
    load_from_tsfile_to_dataframe ["@data"] true "NaN" =
      .error (.typeError "'NoneType' object cannot be interpreted as an integer") ∧
    load_from_tsfile_to_dataframe ["", "   "] true "NaN" =
      .error (.typeError "'NoneType' object cannot be interpreted as an integer") := by
  exact ⟨rfl, rfl⟩

/-- C5 counterexample: an input with full metadata but no data section does
not fail with the metadata-but-no-data error; it fails with the distinct
"metadata incomplete" error (the `@data` tag is itself part of the
metadata completeness check, so the metadata-but-no-data branch at source
line 703 is unreachable for it). -/
theorem claim_C5_counterexample :
    load_from_tsfile_to_dataframe
      ["@problemname x", "@timestamps false", "@univariate true", "@classlabel false"]
      true "NaN" = .error (.tsFileParse "metadata incomplete") ∧
    ("metadata incomplete" : String) ≠ "file contained metadata but no data" := by
  exact ⟨rfl, by decide⟩

/-- C5 amended: the end-of-input conditions produce three pairwise
distinct fatal errors, but assigned differently from the claim: an empty
input fails with the empty-file error, full metadata without a data
section fails with the metadata-incomplete error, and a declared data
section contributing zero instances fails with the
file-contained-metadata-but-no-data error. -/
theorem claim_C5_thm :
    load_from_tsfile_to_dataframe [] true "NaN" = .error (.tsFileParse "empty file") ∧
    load_from_tsfile_to_dataframe
      ["@problemname x", "@timestamps false", "@univariate true", "@classlabel false"]
      true "NaN" = .error (.tsFileParse "metadata incomplete") ∧
    load_from_tsfile_to_dataframe
      ["@problemname x", "@timestamps false", "@univariate true", "@classlabel false", "@data"]
      true "NaN" = .error (.tsFileParse "file contained metadata but no data") ∧
    ("empty file" : String) ≠ "metadata incomplete" ∧
    ("empty file" : String) ≠ "file contained metadata but no data" ∧
    ("metadata incomplete" : String) ≠ "file contained metadata but no data" := by
  refine ⟨rfl, rfl, rfl, by decide, by decide, by decide⟩

/-- C9: parsing is deterministic.  The embedded parser is a pure function
of the line sequence and the arguments, so byte-for-byte identical inputs
yield identical results (or identical errors). -/
theorem claim_C9_thm (lines1 lines2 : List String) (retSep : Bool) (repl : String)
    (h : lines1 = lines2) :
    load_from_tsfile_to_dataframe lines1 retSep repl =
      load_from_tsfile_to_dataframe lines2 retSep repl := by
  rw [h]

theorem claim_C9_witness :
    load_from_tsfile_to_dataframe exampleLines true "NaN" =
      load_from_tsfile_to_dataframe exampleLines true "NaN" :=
  claim_C9_thm exampleLines exampleLines true "NaN" rfl

/-- C10: in the timestamped branch with class labels declared, only the
"no label seen anywhere so far" condition is checked after each line, so
a later line without a trailing label is accepted and the parse succeeds
with a label array (length 1) shorter than the instance count (2 rows in
the single dimension column). -/
theorem claim_C10_thm :
    load_from_tsfile_to_dataframe
      ["@problemname x", "@timestamps true", "@univariate true", "@classlabel true a b",
       "@data", "(0,1.0):a", "(0,2.0)"] true "NaN" =
      .ok (.xy [[.indexed [.int 0] [.finite 1], .indexed [.int 0] [.finite 2]]] ["a".data]) ∧
    (["a".data] : List (List Char)).length + 1 =
      [Series.indexed [.int 0] [.finite 1], Series.indexed [.int 0] [.finite 2]].length := by
  exact ⟨rfl, rfl⟩

theorem takeWhile_all_comma (a : List Char) (b : List Char)
    (ha : ∀ x ∈ a, x ≠ ',') :
    (a ++ ',' :: b).takeWhile (· ≠ ',') = a := by
  induction a with
  | nil => simp [List.takeWhile]
  | cons x xs ih =>
    have hx : x ≠ ',' := ha x (List.mem_cons_self x xs)
    simp only [List.cons_append, List.takeWhile_cons]
    simp only [decide_eq_true_eq] at *
    rw [if_pos hx, ih (fun y hy => ha y (List.mem_cons_of_mem x hy))]

theorem dropWhile_all_comma (a : List Char) (b : List Char)
    (ha : ∀ x ∈ a, x ≠ ',') :
    (a ++ ',' :: b).dropWhile (· ≠ ',') = ',' :: b := by
  induction a with
  | nil => simp [List.dropWhile]
  | cons x xs ih =>
    have hx : x ≠ ',' := ha x (List.mem_cons_self x xs)
    simp only [List.cons_append, List.dropWhile_cons]
    simp only [decide_eq_true_eq]
    rw [if_pos hx]
    exact ih (fun y hy => ha y (List.mem_cons_of_mem x hy))

/-- `rfind(",")` splits a tuple exactly at its last comma: everything after
the last comma is the value text and everything before it the timestamp
text. -/
theorem lastCommaSplit_append (tsRaw valRaw : List Char) (hv : ',' ∉ valRaw) :
    lastCommaSplit (tsRaw ++ ',' :: valRaw) = some (tsRaw, valRaw) := by
  have hmem : ',' ∈ tsRaw ++ ',' :: valRaw := by
    simp
  have hrev : (tsRaw ++ ',' :: valRaw).reverse = valRaw.reverse ++ ',' :: tsRaw.reverse := by
    simp
  have hall : ∀ x ∈ valRaw.reverse, x ≠ ',' := by
    intro x hx h
    exact hv (by simpa [h] using List.mem_reverse.mp hx)
  unfold lastCommaSplit
  rw [if_pos hmem, hrev, takeWhile_all_comma _ _ hall, dropWhile_all_comma _ _ hall]
  simp

/-- C7: once the first tuple of a timestamped file has locked in a
timestamp representation, a tuple using the other representation makes
tuple processing fail with the inconsistent-timestamp-format error; in
particular a file with the tuple `(2021-01-01,5.0)` after an earlier
integer-timestamp tuple is rejected. -/
theorem claim_C7_thm :
    (∀ (ln : Nat) (s : TsScan) (tsRaw valRaw : List Char),
      ',' ∉ valRaw →
      (parseFloatChars valRaw).isSome = true →
      ((s.st.previousTimestampWasInt = some true ∧ parseIntChars tsRaw = none) ∨
       (s.st.prevTimestampWasTimestamp = some true ∧ parseIntChars tsRaw ≠ none)) →
      processTuple ln s (tsRaw ++ ',' :: valRaw) =
        .error (.tsFileParse ("dimension " ++ toString (s.thisLineNumDim + 1) ++
          " on line " ++ toString (ln + 1) ++
          " contains tuples where the timestamp format is inconsistent"))) ∧
    load_from_tsfile_to_dataframe
      ["@problemname x", "@timestamps true", "@univariate true", "@classlabel false",
       "@data", "(1,1.0),(2021-01-01,5.0)"] true "NaN" =
      .error (.tsFileParse
        "dimension 1 on line 6 contains tuples where the timestamp format is inconsistent") := by
  constructor
  · intro ln s tsRaw valRaw hcomma hval hlock
    obtain ⟨v, hv⟩ := Option.isSome_iff_exists.mp hval
    rcases hlock with ⟨hprev, hint⟩ | ⟨hprev, hint⟩
    · simp only [processTuple, lastCommaSplit_append tsRaw valRaw hcomma, hv, hint, hprev]
      simp
    · obtain ⟨i, hi⟩ := Option.ne_none_iff_exists'.mp hint
      simp only [processTuple, lastCommaSplit_append tsRaw valRaw hcomma, hv, hi, hprev]
      simp
  · decide

theorem claim_C7_witness :
    processTuple 5
      ⟨{ metadataStarted := true, dataStarted := true, hasProblemNameTag := true,
         hasTimestampsTag := true, hasUnivariateTag := true, hasClassLabelsTag := true,
         hasDataTag := true, timestamps := some true, classLabels := some false,
         classLabelList := [], previousTimestampWasInt := some true,
         prevTimestampWasTimestamp := some false, numDimensions := none,
         isFirstCase := true, instanceList := [], classValList := [], lineNum := 5 },
       false, false, 0, [.int 1], [.finite 1]⟩
      ("2021-01-01".data ++ ',' :: "5.0".data) =
      .error (.tsFileParse
        "dimension 1 on line 6 contains tuples where the timestamp format is inconsistent") := by
  exact claim_C7_thm.1 5 _ "2021-01-01".data "5.0".data (by decide) (by decide)
    (Or.inl ⟨rfl, by decide⟩)

/-- C1 counterexample: in the non-timestamped branch an out-of-vocabulary
trailing label is accepted without any check, so this file with declared
vocabulary `a b` and data label `c` parses successfully. -/
theorem claim_C1_counterexample :
    load_from_tsfile_to_dataframe
      ["@problemname x", "@timestamps false", "@univariate true", "@classlabel true a b",
       "@data", "1,2,3:c"] true "NaN" =
      .ok (.xy [[.plain [.finite 1, .finite 2, .finite 3]]] ["c".data]) ∧
    ("c".data : List Char) ∉ (["a".data, "b".data] : List (List Char)) := by
  exact ⟨rfl, by decide⟩

/-- C1 amended: only the timestamped branch enforces the vocabulary.
Whenever the timestamped scanner reaches a trailing class-label token
(a non-space character that is neither `(` nor `:` with class labels
declared) whose stripped text is not in the declared vocabulary, the scan
fails with the invalid-class-value parse error. -/
theorem claim_C1_thm (ln fuel : Nat) (s : TsScan) (rest : List Char) (c : Char) (r : List Char)
    (hfuel : 0 < fuel)
    (hdw : rest.dropWhile pyIsSpace = c :: r)
    (hpar : c ≠ '(')
    (hcol : c ≠ ':')
    (hvocab : pyStrip (c :: r) ∉ s.st.classLabelList) :
    tsLoopF true ln fuel s rest =
      .error (.tsFileParse ("the class value '" ++ String.mk (pyStrip (c :: r)) ++
        "' on line " ++ toString (ln + 1) ++ " is not valid")) := by
  match rest, hdw with
  | [], hdw => simp [List.dropWhile] at hdw
  | c0 :: r0, hdw =>
    match fuel, hfuel with
    | f + 1, _ =>
      simp only [tsLoopF, hdw]
      rw [if_neg hcol, if_pos ⟨hpar, trivial⟩, if_pos hvocab]

theorem claim_C1_witness :
    tsLoopF true 5 1
      ⟨{ metadataStarted := true, dataStarted := true, hasProblemNameTag := true,
         hasTimestampsTag := true, hasUnivariateTag := true, hasClassLabelsTag := true,
         hasDataTag := true, timestamps := some true, classLabels := some true,
         classLabelList := ["a".data, "b".data], previousTimestampWasInt := none,
         prevTimestampWasTimestamp := none, numDimensions := none,
         isFirstCase := true, instanceList := [], classValList := [], lineNum := 5 },
       false, false, 0, [], []⟩ "zzz".data =
      .error (.tsFileParse "the class value 'zzz' on line 6 is not valid") := by
  exact claim_C1_thm 5 1 _ "zzz".data 'z' "zz".data (by decide) rfl (by decide) (by decide)
    (by decide)

/-- C8: the `return_separate_X_and_y` flag has no effect on parsing
semantics.  For every input and both flag values the parse either fails
with the identical error, or succeeds with the identical table content
and label values, the flag only selecting whether labels come back as a
separate array or as an appended column. -/
theorem claim_C8_thm (lines : List String) (repl : String) :
    (∃ e, load_from_tsfile_to_dataframe lines true repl = .error e ∧
          load_from_tsfile_to_dataframe lines false repl = .error e) ∨
    (∃ x, load_from_tsfile_to_dataframe lines true repl = .ok (.xOnly x) ∧
          load_from_tsfile_to_dataframe lines false repl = .ok (.xOnly x)) ∨
    (∃ x y, load_from_tsfile_to_dataframe lines true repl = .ok (.xy x y) ∧
            load_from_tsfile_to_dataframe lines false repl = .ok (.withClassColumn x y)) := by
  unfold load_from_tsfile_to_dataframe
  cases hf : lines.foldlM (processLine repl.data) {} with
  | error e => exact Or.inl ⟨e, rfl, rfl⟩
  | ok st =>
    rcases hnd : st.numDimensions with _ | nd <;>
      rcases hcl : st.classLabels with _ | cl <;>
      (try cases cl) <;>
      simp only [finalize, hnd, hcl, if_true, if_false] <;>
      (try split_ifs) <;>
      first
        | exact Or.inl ⟨_, rfl, rfl⟩
        | exact Or.inr (Or.inl ⟨_, rfl, rfl⟩)
        | exact Or.inr (Or.inr ⟨_, _, rfl, rfl⟩)
        | simp_all

/-- Scanning a timestamped line of `k` one-tuple dimensions from a state
whose dimension count is frozen at `D` with a final count different from
`D` fails with the dimension-mismatch parse error. -/
theorem tsLoopF_dims_mismatch (cl : Bool) (ln : Nat) (D : Nat) :
    ∀ (k : Nat), 0 < k → ∀ (fuel : Nat) (s : TsScan),
      (tsDimsChars k).length < fuel →
      s.hav = false → s.tsForDim = [] → s.valsForDim = [] →
      s.st.prevTimestampWasTimestamp ≠ some true →
      s.st.numDimensions = some D →
      s.thisLineNumDim + k ≠ D →
      tsLoopF cl ln fuel s (tsDimsChars k) =
        .error (.tsFileParse ("line " ++ toString (ln + 1) ++
          " does not have the same number of dimensions as the previous line of data")) := by
  have hsplit : lastCommaSplit ['0', ',', '1'] = some (['0'], ['1']) := rfl
  have hfloat : parseFloatChars ['1'] = some (PyFloat.finite 1) := rfl
  have hint : parseIntChars ['0'] = some 0 := rfl
  intro k
  induction k using Nat.strong_induction_on with
  | _ k ih =>
    intro hk fuel s hfuel hhav hts hvs hpts hnd hne
    match k, hk with
    | 1, _ =>
      match fuel, hfuel with
      | f + 1, _ =>
        have hdw : List.dropWhile pyIsSpace ['(', '0', ',', '1', ')'] =
            ['(', '0', ',', '1', ')'] := rfl
        have htw : List.takeWhile (· ≠ ')') ['0', ',', '1', ')'] = ['0', ',', '1'] := rfl
        have hdw2 : List.dropWhile (· ≠ ')') ['0', ',', '1', ')'] = [')'] := rfl
        have hD : D ≠ s.thisLineNumDim + 1 := by omega
        simp only [tsDimsChars, tsLoopF, hdw, htw, hdw2]
        simp [processTuple, checkLineDims, hsplit, hfloat, hint, hhav, hts, hvs, hnd, hpts, hD]
        split_ifs <;> simp_all [checkLineDims, hnd, hD]
    | j + 2, _ =>
      match fuel, hfuel with
      | f + 1, hf =>
        have hdw : List.dropWhile pyIsSpace
            ('(' :: '0' :: ',' :: '1' :: ')' :: ':' :: tsDimsChars (j + 1)) =
            '(' :: '0' :: ',' :: '1' :: ')' :: ':' :: tsDimsChars (j + 1) := by
          simp [List.dropWhile_cons, pyIsSpace]
        have htw : List.takeWhile (· ≠ ')')
            ('0' :: ',' :: '1' :: ')' :: ':' :: tsDimsChars (j + 1)) = ['0', ',', '1'] := by
          simp [List.takeWhile_cons]
        have hdw2 : List.dropWhile (· ≠ ')')
            ('0' :: ',' :: '1' :: ')' :: ':' :: tsDimsChars (j + 1)) =
            ')' :: ':' :: tsDimsChars (j + 1) := by
          simp [List.dropWhile_cons]
        have hdw3 : List.dropWhile pyIsSpace (':' :: tsDimsChars (j + 1)) =
            ':' :: tsDimsChars (j + 1) := by
          simp [List.dropWhile_cons, pyIsSpace]
        have hflen : (tsDimsChars (j + 1)).length < f := by
          have h6 : (tsDimsChars (j + 2)).length = (tsDimsChars (j + 1)).length + 6 := by
            simp [tsDimsChars]
          omega
        simp only [tsDimsChars, tsLoopF, hdw, htw, hdw2, hdw3]
        simp [processTuple, checkLineDims, hsplit, hfloat, hint, hhav, hts, hvs, hnd, hpts]
        split_ifs with hpi <;> (try simp) <;>
          first
          | exact ih (j + 1) (by omega) (by omega) f _ hflen rfl rfl rfl (by simp) rfl
              (by show s.thisLineNumDim + 1 + (j + 1) ≠ D; omega)
          | exact ih (j + 1) (by omega) (by omega) f _ hflen rfl rfl rfl hpts hnd
              (by show s.thisLineNumDim + 1 + (j + 1) ≠ D; omega)
          | simp_all

/-- C6: a data line whose dimension count differs from the count frozen
by the first data line makes the parse fail with the dimension-mismatch
parse error, in the non-timestamped branch (any line, any count) and in
the timestamped branch (any number of one-tuple dimensions), shown also
end-to-end on two-line files of each kind. -/
theorem claim_C6_thm :
    (∀ (st : ParseState) (line : List Char) (cl : Bool) (D : Nat),
      st.isFirstCase = false →
      st.numDimensions = some D →
      (pySplit ':' line).length - (if cl then 1 else 0) ≠ D →
      processPlainLine cl st line =
        .error (.tsFileParse ("inconsistent number of dimensions. Expecting " ++ toString D ++
          " but have read " ++ toString ((pySplit ':' line).length - (if cl then 1 else 0))))) ∧
    (∀ (st : ParseState) (cl : Bool) (k D : Nat),
      0 < k →
      st.prevTimestampWasTimestamp ≠ some true →
      st.numDimensions = some D →
      k ≠ D →
      processTsLine cl st (tsDimsChars k) =
        .error (.tsFileParse ("line " ++ toString (st.lineNum + 1) ++
          " does not have the same number of dimensions as the previous line of data"))) ∧
    load_from_tsfile_to_dataframe
      ["@problemname x", "@timestamps false", "@univariate true", "@classlabel false",
       "@data", "1,2:3,4", "1,2"] true "NaN" =
      .error (.tsFileParse "inconsistent number of dimensions. Expecting 2 but have read 1") ∧
    load_from_tsfile_to_dataframe
      ["@problemname x", "@timestamps true", "@univariate true", "@classlabel false",
       "@data", "(0,1):(0,1)", "(0,1)"] true "NaN" =
      .error (.tsFileParse
        "line 7 does not have the same number of dimensions as the previous line of data") := by
  refine ⟨?_, ?_, rfl, rfl⟩
  · intro st line cl D hfc hnd hne
    have hDne : D ≠ (pySplit ':' line).length - (if cl then 1 else 0) := Ne.symm hne
    simp [processPlainLine, hfc, hnd, hDne, optNatRepr]
  · intro st cl k D hk hpts hnd hne
    have herr := tsLoopF_dims_mismatch cl st.lineNum D k hk ((tsDimsChars k).length + 1)
      ⟨st, false, false, 0, [], []⟩ (by omega) rfl rfl rfl hpts hnd
      (by show 0 + k ≠ D; omega)
    simp only [processTsLine, herr]

theorem claim_C6_witness :
    processPlainLine false
      { metadataStarted := true, dataStarted := true, hasProblemNameTag := true,
        hasTimestampsTag := true, hasUnivariateTag := true, hasClassLabelsTag := true,
        hasDataTag := true, timestamps := some false, classLabels := some false,
        classLabelList := [], previousTimestampWasInt := none,
        prevTimestampWasTimestamp := none, numDimensions := some 2,
        isFirstCase := false, instanceList := [[], []], classValList := [], lineNum := 6 }
      "1,2".data =
      .error (.tsFileParse "inconsistent number of dimensions. Expecting 2 but have read 1") ∧
    processTsLine false
      { metadataStarted := true, dataStarted := true, hasProblemNameTag := true,
        hasTimestampsTag := true, hasUnivariateTag := true, hasClassLabelsTag := true,
        hasDataTag := true, timestamps := some true, classLabels := some false,
        classLabelList := [], previousTimestampWasInt := some true,
        prevTimestampWasTimestamp := some false, numDimensions := some 2,
        isFirstCase := true, instanceList := [[], []], classValList := [], lineNum := 6 }
      (tsDimsChars 1) =
      .error (.tsFileParse
        "line 7 does not have the same number of dimensions as the previous line of data") := by
  constructor
  · exact claim_C6_thm.1 _ "1,2".data false 2 rfl rfl (by decide)
  · exact claim_C6_thm.2.1 _ false 1 2 (by decide) (by decide) rfl (by decide)

theorem lowerChars_eq_self (l : List Char) (h : ∀ c ∈ l, asciiLower c = c) :
    lowerChars l = l := by
  unfold lowerChars
  induction l with
  | nil => rfl
  | cons c r ih =>
    simp only [List.map_cons, List.cons.injEq]
    exact ⟨h c (List.mem_cons_self c r), ih (fun x hx => h x (List.mem_cons_of_mem c hx))⟩

theorem pyStrip_eq_self (l : List Char) (c1 c2 : Char)
    (h1 : l.head? = some c1) (hc1 : pyIsSpace c1 = false)
    (h2 : l.getLast? = some c2) (hc2 : pyIsSpace c2 = false) :
    pyStrip l = l := by
  unfold pyStrip
  match l, h1 with
  | c1 :: r, rfl =>
    rw [List.dropWhile_cons, if_neg (by simp [hc1])]
    have hrev : (c1 :: r).reverse.head? = some c2 := by
      rw [List.head?_reverse]; exact h2
    obtain ⟨t, ht⟩ : ∃ t, (c1 :: r).reverse = c2 :: t := by
      cases hx : (c1 :: r).reverse with
      | nil => rw [hx] at hrev; simp at hrev
      | cons a t =>
        rw [hx] at hrev
        simp only [List.head?_cons, Option.some.injEq] at hrev
        exact ⟨t, by rw [hrev]⟩
    rw [ht, List.dropWhile_cons, if_neg (by simp [hc2]), ← ht, List.reverse_reverse]

theorem pyStrip_all (l : List Char) (h : ∀ c ∈ l, pyIsSpace c = false) : pyStrip l = l := by
  cases l with
  | nil => rfl
  | cons c r =>
    have hlast : (c :: r).getLast? = some ((c :: r).getLast (by simp)) :=
      List.getLast?_eq_getLast _ (by simp)
    exact pyStrip_eq_self _ c _ rfl (h c (by simp)) hlast (h _ (List.getLast_mem _))

theorem pyReplaceQ_eq_self (repl l : List Char) (h : ∀ c ∈ l, c ≠ '?') :
    pyReplaceQ repl l = l := by
  unfold pyReplaceQ
  induction l with
  | nil => rfl
  | cons c r ih =>
    rw [List.flatMap_cons, if_neg (h c (List.mem_cons_self c r)),
      ih (fun x hx => h x (List.mem_cons_of_mem c hx))]
    rfl

theorem pySplit_ne_nil (sep : Char) (l : List Char) : pySplit sep l ≠ [] := by
  cases l with
  | nil => simp [pySplit]
  | cons c r =>
    rw [pySplit]
    cases hx : pySplit sep r with
    | nil => simp
    | cons x t => split <;> (try simp) <;> split <;> simp

theorem pySplit_no_sep (sep : Char) (l : List Char) (h : sep ∉ l) : pySplit sep l = [l] := by
  induction l with
  | nil => rfl
  | cons c r ih =>
    rw [pySplit, ih (fun hx => h (List.mem_cons_of_mem c hx))]
    show (if c = sep then [] :: r :: ([] : List (List Char)) else (c :: r) :: []) = [c :: r]
    rw [if_neg (fun hc => h (by rw [← hc]; exact List.mem_cons_self c r))]

theorem pySplit_append (sep : Char) (a b : List Char) (h : sep ∉ a) :
    pySplit sep (a ++ sep :: b) = a :: pySplit sep b := by
  induction a with
  | nil =>
    simp only [List.nil_append]
    rw [pySplit]
    cases hx : pySplit sep b with
    | nil => exact absurd hx (pySplit_ne_nil sep b)
    | cons x t => simp
  | cons c r ih =>
    simp only [List.cons_append]
    rw [pySplit, ih (fun hx => h (List.mem_cons_of_mem c hx))]
    show (if c = sep then [] :: r :: _ else (c :: r) :: _) = (c :: r) :: pySplit sep b
    rw [if_neg (fun hc => h (by rw [← hc]; exact List.mem_cons_self c r))]

theorem pySplit_joinSep (sep : Char) (parts : List (List Char)) (hne : parts ≠ [])
    (h : ∀ p ∈ parts, sep ∉ p) : pySplit sep (joinSep sep parts) = parts := by
  induction parts with
  | nil => exact absurd rfl hne
  | cons p ps ih =>
    cases ps with
    | nil => exact pySplit_no_sep sep p (h p (List.mem_cons_self p []))
    | cons q qs =>
      rw [joinSep, pySplit_append sep p _ (h p (List.mem_cons_self p _)),
        ih (List.cons_ne_nil q qs) (fun x hx => h x (List.mem_cons_of_mem p hx))]
      exact List.cons_ne_nil q qs

theorem joinSep_head? (sep : Char) (v : List Char) (vs : List (List Char)) :
    v ≠ [] → ∃ c, c ∈ v ∧ (joinSep sep (v :: vs)).head? = some c := by
  intro hv
  match v, hv with
  | c :: r, _ =>
    refine ⟨c, List.mem_cons_self c r, ?_⟩
    cases vs with
    | nil => rfl
    | cons q qs => rfl

theorem joinSep_getLast? (sep : Char) (vs : List (List Char)) (hne : vs ≠ [])
    (hv : ∀ v ∈ vs, v ≠ []) :
    ∃ u ∈ vs, (joinSep sep vs).getLast? = u.getLast? := by
  induction vs with
  | nil => exact absurd rfl hne
  | cons p ps ih =>
    cases ps with
    | nil => exact ⟨p, List.mem_cons_self p [], rfl⟩
    | cons q qs =>
      obtain ⟨u, hu, heq⟩ := ih (List.cons_ne_nil q qs)
        (fun x hx => hv x (List.mem_cons_of_mem p hx))
      refine ⟨u, List.mem_cons_of_mem p hu, ?_⟩
      rw [joinSep, List.getLast?_append_of_ne_nil]
      · rw [← heq]
        have hJ : joinSep sep (q :: qs) ≠ [] := by
          have := joinSep_head? sep q qs (hv q (by simp))
          obtain ⟨c, _, hc⟩ := this
          intro hnil
          rw [hnil] at hc
          simp at hc
        cases hx : joinSep sep (q :: qs) with
        | nil => exact absurd hx hJ
        | cons a t => simp
      · simp
      · exact List.cons_ne_nil q qs

theorem not_tag_isPrefixOf (t line : List Char) (c : Char)
    (ht : t.head? = some '@') (hc : line.head? = some c) (hne : c ≠ '@') :
    t.isPrefixOf line = false := by
  cases t with
  | nil => simp at ht
  | cons a t2 =>
    cases line with
    | nil => simp at hc
    | cons b l2 =>
      simp only [List.head?_cons, Option.some.injEq] at ht hc
      subst ht
      subst hc
      have hb : ('@' == b) = false := by
        rw [beq_eq_false_iff_ne]
        exact fun h => hne h.symm
      simp [List.isPrefixOf, hb]

theorem goodChar_not_space (c : Char) (h : goodChar c = true) : pyIsSpace c = false := by
  simp only [goodChar, Bool.and_eq_true, Bool.not_eq_true'] at h
  exact h.1.2

theorem goodChar_lower (c : Char) (h : goodChar c = true) : asciiLower c = c := by
  simp only [goodChar, Bool.and_eq_true, beq_iff_eq] at h
  exact h.2

theorem goodChar_ne (c : Char) (h : goodChar c = true) :
    c ≠ ':' ∧ c ≠ '?' ∧ c ≠ '@' := by
  simp only [goodChar, Bool.and_eq_true, bne_iff_ne, ne_eq] at h
  exact ⟨h.1.1.1.1, h.1.1.1.2, h.1.1.2⟩

theorem mapM_floats_ok (toks : List (List Char))
    (h : ∀ t ∈ toks, (parseFloatChars t).isSome = true) :
    ∃ vals, toks.mapM (fun tok =>
      match parseFloatChars tok with
      | some v => Except.ok v
      | none => (Except.error (PyErr.valueError
          ("could not convert string to float: '" ++ String.mk tok ++ "'")) :
            Except PyErr PyFloat)) = Except.ok vals := by
  induction toks with
  | nil => exact ⟨[], rfl⟩
  | cons t ts ih =>
    obtain ⟨v, hv⟩ := Option.isSome_iff_exists.mp (h t (by simp))
    obtain ⟨vals, hvals⟩ := ih (fun x hx => h x (List.mem_cons_of_mem t hx))
    refine ⟨v :: vals, ?_⟩
    rw [List.mapM_cons]
    simp only [hv, hvals]
    rfl

theorem setAppend_length (l : List (List Series)) (i : Nat) (x : Series) :
    (setAppend l i x).length = l.length := by simp [setAppend]

theorem setAppend_getD_eq (l : List (List Series)) (i : Nat) (x : Series) (h : i < l.length) :
    (setAppend l i x).getD i [] = l.getD i [] ++ [x] := by
  simp [setAppend, List.getD, List.getElem?_set_self', h]

theorem setAppend_getD_ne (l : List (List Series)) (i j : Nat) (x : Series) (h : j ≠ i) :
    (setAppend l i x).getD j [] = l.getD j [] := by
  simp [setAppend, List.getD, List.getElem?_set_ne (Ne.symm h)]

theorem plainDimStep_ok (dimensions : List (List Char)) (acc : List (List Series)) (i : Nat)
    (hg : goodSeg (dimensions.getD i []) = true) :
    ∃ ser, plainDimStep dimensions acc i = .ok (setAppend acc i ser) := by
  simp only [goodSeg, Bool.and_eq_true, Bool.not_eq_true',
    List.all_eq_true] at hg
  obtain ⟨⟨hne, hchars⟩, htoks⟩ := hg
  have hne2 : dimensions.getD i [] ≠ [] := by simpa using hne
  have hstrip : pyStrip (dimensions.getD i []) = dimensions.getD i [] :=
    pyStrip_all _ (fun c hc => goodChar_not_space c (hchars c hc))
  obtain ⟨vals, hvals⟩ := mapM_floats_ok (pySplit ',' (dimensions.getD i []))
    (fun t ht => by simpa using htoks t ht)
  refine ⟨.plain vals, ?_⟩
  unfold plainDimStep
  rw [hstrip, if_pos hne2, hvals]

theorem dimsFold_ok (dimensions : List (List Char)) :
    ∀ (ks : List Nat) (acc : List (List Series)),
      (∀ i ∈ ks, i < acc.length ∧ goodSeg (dimensions.getD i []) = true) →
      ∃ acc', ks.foldlM (plainDimStep dimensions) acc = .ok acc' ∧
        acc'.length = acc.length ∧
        (∀ m, m < acc.length →
          (acc'.getD m []).length = (acc.getD m []).length + ks.count m) := by
  intro ks
  induction ks with
  | nil =>
    intro acc _
    exact ⟨acc, rfl, rfl, by simp⟩
  | cons i ks ih =>
    intro acc h
    have hi := h i (by simp)
    obtain ⟨ser, hser⟩ := plainDimStep_ok dimensions acc i hi.2
    obtain ⟨acc', hfold, hlen, hcnt⟩ := ih (setAppend acc i ser) (by
      intro x hx
      have hx2 := h x (List.mem_cons_of_mem i hx)
      exact ⟨by rw [setAppend_length]; exact hx2.1, hx2.2⟩)
    refine ⟨acc', ?_, ?_, ?_⟩
    · rw [List.foldlM_cons, hser]
      simpa using hfold
    · rw [hlen, setAppend_length]
    · intro m hm
      have hm2 : m < (setAppend acc i ser).length := by rw [setAppend_length]; exact hm
      rw [hcnt m hm2]
      by_cases hmi : m = i
      · subst hmi
        rw [setAppend_getD_eq _ _ _ hm]
        simp [List.count_cons]
        omega
      · rw [setAppend_getD_ne _ _ _ _ hmi]
        have hbe : (i == m) = false := by
          rw [beq_eq_false_iff_ne]
          exact fun hh => hmi hh.symm
        have : (i :: ks).count m = ks.count m := by
          simp [List.count_cons, hbe]
        omega

theorem mem_joinSep (sep : Char) :
    ∀ (parts : List (List Char)) (c : Char), c ∈ joinSep sep parts →
      c = sep ∨ ∃ p ∈ parts, c ∈ p := by
  intro parts
  induction parts with
  | nil => intro c hc; simp [joinSep] at hc
  | cons p ps ih =>
    intro c hc
    cases ps with
    | nil => exact Or.inr ⟨p, by simp, by simpa [joinSep] using hc⟩
    | cons q qs =>
      rw [show joinSep sep (p :: q :: qs) = p ++ sep :: joinSep sep (q :: qs) from rfl] at hc
      rcases List.mem_append.mp hc with h1 | h2
      · exact Or.inr ⟨p, by simp, h1⟩
      · rcases List.mem_cons.mp h2 with h3 | h4
        · exact Or.inl h3
        · rcases ih c h4 with h5 | ⟨u, hu, hcu⟩
          · exact Or.inl h5
          · exact Or.inr ⟨u, List.mem_cons_of_mem p hu, hcu⟩

theorem count_range_eq_one (D m : Nat) (h : m < D) : (List.range D).count m = 1 :=
  List.count_eq_one_of_mem (List.nodup_range D) (List.mem_range.mpr h)

theorem getD_append_left (l l2 : List (List Char)) (i : Nat) (h : i < l.length) :
    (l ++ l2).getD i [] = l.getD i [] := by
  simp [List.getD, List.getElem?_append_left h]

theorem getD_append_last (l : List (List Char)) (x : List Char) :
    (l ++ [x]).getD l.length [] = x := by
  simp [List.getD]

theorem processPlainLine_ok (st : ParseState)
    (segs : List (List Char)) (lab : List Char) (D : Nat)
    (hfc : st.isFirstCase = false) (hnd : st.numDimensions = some D)
    (hlen : segs.length = D) (hil : st.instanceList.length = D)
    (hsegs : ∀ s ∈ segs, goodSeg s = true)
    (hlabgood : ∀ c ∈ lab, goodChar c = true) :
    ∃ inst',
      processPlainLine true st (joinSep ':' (segs ++ [lab])) =
        .ok { st with instanceList := inst',
                      classValList := st.classValList ++ [lab] } ∧
      inst'.length = D ∧
      (∀ m, m < D → (inst'.getD m []).length = (st.instanceList.getD m []).length + 1) := by
  have hsplit : pySplit ':' (joinSep ':' (segs ++ [lab])) = segs ++ [lab] := by
    apply pySplit_joinSep
    · simp
    · intro p hp hmem
      rcases List.mem_append.mp hp with h1 | h2
      · have hg := hsegs p h1
        simp only [goodSeg, Bool.and_eq_true, List.all_eq_true] at hg
        exact (goodChar_ne ':' (hg.1.2 ':' hmem)).1 rfl
      · have hpl : p = lab := by simpa using h2
        subst hpl
        exact (goodChar_ne ':' (hlabgood ':' hmem)).1 rfl
  have hcount : (segs ++ [lab]).length - 1 = D := by simp [hlen]
  obtain ⟨inst', hfold, hlen', hcnt⟩ := dimsFold_ok (segs ++ [lab]) (List.range D)
    st.instanceList (by
      intro i hi
      have hiD : i < D := List.mem_range.mp hi
      refine ⟨by rw [hil]; exact hiD, ?_⟩
      rw [getD_append_left segs [lab] i (by rw [hlen]; exact hiD)]
      have : segs.getD i [] ∈ segs := by
        have : i < segs.length := by rw [hlen]; exact hiD
        simp [List.getD, List.getElem?_eq_getElem this]
      exact hsegs _ this)
  have hlab2 : pyStrip ((segs ++ [lab]).getD D []) = lab := by
    rw [← hlen, getD_append_last]
    exact pyStrip_all lab (fun c hc => goodChar_not_space c (hlabgood c hc))
  refine ⟨inst', ?_, by rw [hlen', hil], fun m hm => by
    rw [hcnt m (by rw [hil]; exact hm), count_range_eq_one D m hm]⟩
  unfold processPlainLine
  rw [hsplit]
  simp only [hfc, if_true, if_false, Bool.false_eq_true, hcount]
  rw [if_neg (by rw [hnd]; simp), hnd]
  simp only [hfold, hlab2]

theorem processPlainLine_first (cl : Bool) (st : ParseState) (line : List Char)
    (hfc : st.isFirstCase = true) :
    processPlainLine cl st line =
      processPlainLine cl
        { st with
          numDimensions := some ((pySplit ':' line).length - (if cl then 1 else 0)),
          instanceList := List.replicate ((pySplit ':' line).length - (if cl then 1 else 0)) [],
          isFirstCase := false } line := by
  unfold processPlainLine
  simp [hfc]

theorem processLine_plain (repl : List Char) (st : ParseState)
    (segs : List (List Char)) (lab : List Char)
    (h1 : st.hasProblemNameTag = true) (h2 : st.hasTimestampsTag = true)
    (h3 : st.hasUnivariateTag = true) (h4 : st.hasClassLabelsTag = true)
    (h5 : st.hasDataTag = true) (hds : st.dataStarted = true)
    (hts : st.timestamps = some false) (hcl : st.classLabels = some true)
    (hsegs : ∀ s ∈ segs, goodSeg s = true) (hsne : segs ≠ [])
    (hlabne : lab ≠ []) (hlabgood : ∀ c ∈ lab, goodChar c = true) :
    processLine repl st (plainDataLine segs lab) =
      match processPlainLine true st (joinSep ':' (segs ++ [lab])) with
      | .error e => .error e
      | .ok s => .ok { s with lineNum := st.lineNum + 1 } := by
  have hgood : ∀ c ∈ joinSep ':' (segs ++ [lab]), c = ':' ∨ goodChar c = true := by
    intro c hc
    rcases mem_joinSep ':' _ c hc with h | ⟨p, hp, hcp⟩
    · exact Or.inl h
    · rcases List.mem_append.mp hp with hp1 | hp2
      · have hg := hsegs p hp1
        simp only [goodSeg, Bool.and_eq_true, List.all_eq_true] at hg
        exact Or.inr (hg.1.2 c hcp)
      · have hpl : p = lab := by simpa using hp2
        exact Or.inr (hlabgood c (hpl ▸ hcp))
  obtain ⟨s0, segs', rfl⟩ : ∃ s0 segs', segs = s0 :: segs' := by
    cases segs with
    | nil => exact absurd rfl hsne
    | cons a b => exact ⟨a, b, rfl⟩
  have hs0ne : s0 ≠ [] := by
    have hg := hsegs s0 (by simp)
    simp only [goodSeg, Bool.and_eq_true, Bool.not_eq_true'] at hg
    simpa using hg.1.1
  obtain ⟨c0, hc0mem, hc0⟩ := joinSep_head? ':' s0 (segs' ++ [lab]) hs0ne
  have hc0good : goodChar c0 = true := by
    have hg := hsegs s0 (by simp)
    simp only [goodSeg, Bool.and_eq_true, List.all_eq_true] at hg
    exact hg.1.2 c0 hc0mem
  obtain ⟨u, humem, hulast⟩ := joinSep_getLast? ':' ((s0 :: segs') ++ [lab]) (by simp) (by
    intro v hv
    rcases List.mem_append.mp hv with hv1 | hv2
    · have hg := hsegs v hv1
      simp only [goodSeg, Bool.and_eq_true, Bool.not_eq_true'] at hg
      simpa using hg.1.1
    · have : v = lab := by simpa using hv2
      subst this
      exact hlabne)
  have hune : u ≠ [] := by
    rcases List.mem_append.mp humem with hv1 | hv2
    · have hg := hsegs u hv1
      simp only [goodSeg, Bool.and_eq_true, Bool.not_eq_true'] at hg
      simpa using hg.1.1
    · have : u = lab := by simpa using hv2
      subst this
      exact hlabne
  have hugood : ∀ c ∈ u, goodChar c = true := by
    intro c hc
    rcases List.mem_append.mp humem with hv1 | hv2
    · have hg := hsegs u hv1
      simp only [goodSeg, Bool.and_eq_true, List.all_eq_true] at hg
      exact hg.1.2 c hc
    · have : u = lab := by simpa using hv2
      exact hlabgood c (this ▸ hc)
  have hlast : (joinSep ':' ((s0 :: segs') ++ [lab])).getLast? =
      some (u.getLast hune) := by
    rw [hulast]
    exact List.getLast?_eq_getLast u hune
  have hstrip : pyStrip (joinSep ':' ((s0 :: segs') ++ [lab])) =
      joinSep ':' ((s0 :: segs') ++ [lab]) :=
    pyStrip_eq_self _ c0 (u.getLast hune) hc0 (goodChar_not_space c0 hc0good)
      hlast (goodChar_not_space _ (hugood _ (List.getLast_mem hune)))
  have hlower : lowerChars (joinSep ':' ((s0 :: segs') ++ [lab])) =
      joinSep ':' ((s0 :: segs') ++ [lab]) := by
    apply lowerChars_eq_self
    intro c hc
    rcases hgood c hc with h | h
    · subst h; decide
    · exact goodChar_lower c h
  have hlineno : joinSep ':' ((s0 :: segs') ++ [lab]) ≠ [] := by
    intro hnil
    have hx : (joinSep ':' ((s0 :: segs') ++ [lab])).head? = some c0 := hc0
    rw [hnil] at hx
    simp at hx
  have hc0ne : c0 ≠ '@' := (goodChar_ne c0 hc0good).2.2
  have hp1 : "@problemname".data.isPrefixOf (joinSep ':' ((s0 :: segs') ++ [lab])) = false :=
    not_tag_isPrefixOf _ _ c0 rfl hc0 hc0ne
  have hp2 : "@timestamps".data.isPrefixOf (joinSep ':' ((s0 :: segs') ++ [lab])) = false :=
    not_tag_isPrefixOf _ _ c0 rfl hc0 hc0ne
  have hp3 : "@univariate".data.isPrefixOf (joinSep ':' ((s0 :: segs') ++ [lab])) = false :=
    not_tag_isPrefixOf _ _ c0 rfl hc0 hc0ne
  have hp4 : "@classlabel".data.isPrefixOf (joinSep ':' ((s0 :: segs') ++ [lab])) = false :=
    not_tag_isPrefixOf _ _ c0 rfl hc0 hc0ne
  have hp5 : "@data".data.isPrefixOf (joinSep ':' ((s0 :: segs') ++ [lab])) = false :=
    not_tag_isPrefixOf _ _ c0 rfl hc0 hc0ne
  have hrepl : pyReplaceQ repl (joinSep ':' ((s0 :: segs') ++ [lab])) =
      joinSep ':' ((s0 :: segs') ++ [lab]) := by
    apply pyReplaceQ_eq_self
    intro c hc
    rcases hgood c hc with h | h
    · subst h; decide
    · exact (goodChar_ne c h).2.1
  have hdata : (plainDataLine (s0 :: segs') lab).data =
      joinSep ':' ((s0 :: segs') ++ [lab]) := rfl
  unfold processLine processCore processDataLine
  rw [hdata, hstrip, hlower]
  simp only [hp1, hp2, hp3, hp4, hp5, hds, h1, h2, h3, h4, h5, hts, hcl, hrepl,
    if_neg hlineno, Bool.false_eq_true, if_false, if_true, not_true, and_self,
    not_false_iff, if_neg (by simp : ¬(False))]

theorem map_pyStrip_id (vs : List (List Char)) (h : ∀ v ∈ vs, pyStrip v = v) :
    vs.map pyStrip = vs := by
  induction vs with
  | nil => rfl
  | cons v vs ih =>
    rw [List.map_cons, h v (by simp), ih (fun x hx => h x (List.mem_cons_of_mem v hx))]

theorem processLine_classLabel (repl : List Char) (st : ParseState)
    (vocab : List (List Char)) (hvne : vocab ≠ [])
    (hv : ∀ v ∈ vocab, goodVocabTok v = true)
    (hds : st.dataStarted = false) :
    processLine repl st (classLabelLine vocab) =
      .ok { st with
            classLabels := some true, hasClassLabelsTag := true,
            classLabelList := vocab, metadataStarted := true,
            lineNum := st.lineNum + 1 } := by
  have hvne2 : ∀ v ∈ vocab, v ≠ [] := by
    intro v hvv
    have hg := hv v hvv
    simp only [goodVocabTok, Bool.and_eq_true, Bool.not_eq_true'] at hg
    simpa using hg.1
  have hvgood : ∀ v ∈ vocab, ∀ c ∈ v, goodChar c = true := by
    intro v hvv c hc
    have hg := hv v hvv
    simp only [goodVocabTok, Bool.and_eq_true, List.all_eq_true] at hg
    exact hg.2 c hc
  obtain ⟨v0, vocab', rfl⟩ : ∃ v0 vocab', vocab = v0 :: vocab' := by
    cases vocab with
    | nil => exact absurd rfl hvne
    | cons a b => exact ⟨a, b, rfl⟩
  obtain ⟨cJ, hcJmem, hcJ⟩ := joinSep_head? ' ' v0 vocab' (hvne2 v0 (by simp))
  have hJne : joinSep ' ' (v0 :: vocab') ≠ [] := by
    intro hnil
    rw [hnil] at hcJ
    simp at hcJ
  obtain ⟨u, humem, hulast⟩ := joinSep_getLast? ' ' (v0 :: vocab') (by simp) hvne2
  have hune : u ≠ [] := hvne2 u humem
  have hulastgood : goodChar (u.getLast hune) = true :=
    hvgood u humem _ (List.getLast_mem hune)
  have hlineLast : ("@classlabel true ".data ++ joinSep ' ' (v0 :: vocab')).getLast? =
      some (u.getLast hune) := by
    rw [List.getLast?_append_of_ne_nil _ hJne, hulast]
    exact List.getLast?_eq_getLast u hune
  have hstrip : pyStrip ("@classlabel true ".data ++ joinSep ' ' (v0 :: vocab')) =
      "@classlabel true ".data ++ joinSep ' ' (v0 :: vocab') := by
    refine pyStrip_eq_self _ '@' (u.getLast hune) rfl (by decide) hlineLast
      (goodChar_not_space _ hulastgood)
  have hlower : lowerChars ("@classlabel true ".data ++ joinSep ' ' (v0 :: vocab')) =
      "@classlabel true ".data ++ joinSep ' ' (v0 :: vocab') := by
    apply lowerChars_eq_self
    intro c hc
    rcases List.mem_append.mp hc with h1 | h2
    · fin_cases h1 <;> decide
    · rcases mem_joinSep ' ' _ c h2 with h3 | ⟨p, hp, hcp⟩
      · subst h3; decide
      · exact goodChar_lower c (hvgood p hp c hcp)
  have heq : "@classlabel true ".data ++ joinSep ' ' (v0 :: vocab') =
      "@classlabel".data ++ ' ' :: ("true".data ++ ' ' :: joinSep ' ' (v0 :: vocab')) := rfl
  have hsplitline : pySplit ' ' ("@classlabel true ".data ++ joinSep ' ' (v0 :: vocab')) =
      "@classlabel".data :: "true".data :: (v0 :: vocab') := by
    rw [heq, pySplit_append ' ' _ _ (by decide), pySplit_append ' ' _ _ (by decide),
      pySplit_joinSep ' ' _ (by simp) (by
        intro p hp hmem
        have hsp := goodChar_not_space ' ' (hvgood p hp ' ' hmem)
        simp [pyIsSpace] at hsp)]
  have hexp : "@classlabel true ".data ++ joinSep ' ' (v0 :: vocab') =
      '@' :: 'c' :: 'l' :: 'a' :: 's' :: 's' :: 'l' :: 'a' :: 'b' :: 'e' :: 'l' :: ' ' ::
        't' :: 'r' :: 'u' :: 'e' :: ' ' :: joinSep ' ' (v0 :: vocab') := rfl
  have hP1 : "@problemname".data.isPrefixOf
      ("@classlabel true ".data ++ joinSep ' ' (v0 :: vocab')) = false := by
    rw [hexp]; simp [List.isPrefixOf]
  have hP2 : "@timestamps".data.isPrefixOf
      ("@classlabel true ".data ++ joinSep ' ' (v0 :: vocab')) = false := by
    rw [hexp]; simp [List.isPrefixOf]
  have hP3 : "@univariate".data.isPrefixOf
      ("@classlabel true ".data ++ joinSep ' ' (v0 :: vocab')) = false := by
    rw [hexp]; simp [List.isPrefixOf]
  have hP4 : "@classlabel".data.isPrefixOf
      ("@classlabel true ".data ++ joinSep ' ' (v0 :: vocab')) = true := by
    rw [hexp]; simp [List.isPrefixOf]
  have hlineno : "@classlabel true ".data ++ joinSep ' ' (v0 :: vocab') ≠ [] := by
    rw [hexp]; simp
  have hmapstrip : (v0 :: vocab').map pyStrip = v0 :: vocab' :=
    map_pyStrip_id _ (fun v hv2 =>
      pyStrip_all v (fun c hc => goodChar_not_space c (hvgood v hv2 c hc)))
  unfold processLine processCore
  rw [show (classLabelLine (v0 :: vocab')).data =
      "@classlabel true ".data ++ joinSep ' ' (v0 :: vocab') from rfl, hstrip, hlower]
  simp only [hP1, hP2, hP3, hP4, hds, Bool.false_eq_true, if_false, if_true,
    hsplitline, if_neg hlineno, hmapstrip]
  simp [List.getD]
  have h2 := hmapstrip
  simp only [List.map_cons, List.cons.injEq] at h2
  exact h2

theorem dataLines_fold (repl : List Char) (vocab : List (List Char))
    (hv : ∀ v ∈ vocab, goodVocabTok v = true) (D : Nat) (hD : 0 < D) :
    ∀ (dls : List (List (List Char) × List Char)) (st : ParseState),
      st.hasProblemNameTag = true → st.hasTimestampsTag = true →
      st.hasUnivariateTag = true → st.hasClassLabelsTag = true →
      st.hasDataTag = true → st.dataStarted = true → st.metadataStarted = true →
      st.timestamps = some false → st.classLabels = some true →
      st.isFirstCase = false → st.numDimensions = some D →
      st.instanceList.length = D →
      (∀ p ∈ dls, p.1.length = D ∧ ∀ s ∈ p.1, goodSeg s = true) →
      (∀ p ∈ dls, p.2 ∈ vocab) →
      ∃ st',
        (dls.map (fun p => plainDataLine p.1 p.2)).foldlM (processLine repl) st = .ok st' ∧
        st'.hasProblemNameTag = true ∧ st'.hasTimestampsTag = true ∧
        st'.hasUnivariateTag = true ∧ st'.hasClassLabelsTag = true ∧
        st'.hasDataTag = true ∧ st'.dataStarted = true ∧ st'.metadataStarted = true ∧
        st'.timestamps = some false ∧ st'.classLabels = some true ∧
        st'.isFirstCase = false ∧ st'.numDimensions = some D ∧
        st'.instanceList.length = D ∧
        (∀ m, m < D →
          (st'.instanceList.getD m []).length =
            (st.instanceList.getD m []).length + dls.length) ∧
        st'.classValList = st.classValList ++ dls.map (fun p => p.2) ∧
        st'.lineNum = st.lineNum + dls.length := by
  intro dls
  induction dls with
  | nil =>
    intro st f1 f2 f3 f4 f5 f6 f7 f8 f9 f10 f11 f12 _ _
    exact ⟨st, rfl, f1, f2, f3, f4, f5, f6, f7, f8, f9, f10, f11, f12,
      fun m _ => by simp, by simp, by simp⟩
  | cons p dls ih =>
    intro st f1 f2 f3 f4 f5 f6 f7 f8 f9 f10 f11 f12 hsegs hlab
    have hp := hsegs p (by simp)
    have hpl := hlab p (by simp)
    have hlabne : p.2 ≠ [] := by
      have hg := hv p.2 hpl
      simp only [goodVocabTok, Bool.and_eq_true, Bool.not_eq_true'] at hg
      simpa using hg.1
    have hlabgood : ∀ c ∈ p.2, goodChar c = true := by
      intro c hc
      have hg := hv p.2 hpl
      simp only [goodVocabTok, Bool.and_eq_true, List.all_eq_true] at hg
      exact hg.2 c hc
    have hsne : p.1 ≠ [] := by
      intro hnil
      rw [hnil] at hp
      simp at hp
      omega
    obtain ⟨inst', hline, hilen, hicnt⟩ :=
      processPlainLine_ok st p.1 p.2 D f10 f11 hp.1 f12 hp.2 hlabgood
    have hstep := processLine_plain repl st p.1 p.2 f1 f2 f3 f4 f5 f6 f8 f9
      hp.2 hsne hlabne hlabgood
    rw [hline] at hstep
    obtain ⟨st', hfold, g1, g2, g3, g4, g5, g6, g7, g8, g9, g10, g11, g12, gcnt, gcvl, gln⟩ :=
      ih { st with instanceList := inst',
                   classValList := st.classValList ++ [p.2],
                   lineNum := st.lineNum + 1 }
        f1 f2 f3 f4 f5 f6 f7 f8 f9 f10 f11 hilen
        (fun q hq => hsegs q (List.mem_cons_of_mem p hq))
        (fun q hq => hlab q (List.mem_cons_of_mem p hq))
    refine ⟨st', ?_, g1, g2, g3, g4, g5, g6, g7, g8, g9, g10, g11, g12, ?_, ?_, ?_⟩
    · rw [List.map_cons, List.foldlM_cons, hstep]
      simpa using hfold
    · intro m hm
      have h1 : (st'.instanceList.getD m []).length = (inst'.getD m []).length + dls.length :=
        gcnt m hm
      have h2 := hicnt m hm
      simp only [List.length_cons]
      omega
    · rw [gcvl]
      simp
    · rw [gln]
      simp
      omega

theorem except_bind_ok {ε α β : Type} (x : α) (f : α → Except ε β) :
    (Except.ok x >>= f : Except ε β) = f x := rfl

theorem getD_replicate_nil (D m : Nat) :
    (List.replicate D ([] : List Series)).getD m [] = [] := by
  simp [List.getD]

/-- C2: every well-formed non-timestamped file whose data lines carry `D`
well-formed dimension segments and an in-vocabulary label parses to a table
with `D` dimension columns, each of length equal to the number of data
lines, and a label array of the same length whose entries all belong to
the declared vocabulary. -/
theorem claim_C2_thm (repl : String) (vocab : List (List Char))
    (dls : List (List (List Char) × List Char)) (D : Nat)
    (hD : 0 < D) (hne : dls ≠ [])
    (hvne : vocab ≠ []) (hv : ∀ v ∈ vocab, goodVocabTok v = true)
    (hsegs : ∀ p ∈ dls, p.1.length = D ∧ ∀ s ∈ p.1, goodSeg s = true)
    (hlab : ∀ p ∈ dls, p.2 ∈ vocab) :
    ∃ cols labs,
      load_from_tsfile_to_dataframe
        (["@problemname x", "@timestamps false", "@univariate true", classLabelLine vocab,
          "@data"] ++ dls.map (fun p => plainDataLine p.1 p.2)) true repl =
        .ok (.xy cols labs) ∧
      cols.length = D ∧
      (∀ col ∈ cols, col.length = dls.length) ∧
      labs.length = dls.length ∧
      (∀ l ∈ labs, l ∈ vocab) := by
  obtain ⟨p0, rest, rfl⟩ : ∃ p0 rest, dls = p0 :: rest := by
    cases dls with
    | nil => exact absurd rfl hne
    | cons a b => exact ⟨a, b, rfl⟩
  have hp0 := hsegs p0 (by simp)
  have hp0l := hlab p0 (by simp)
  have hlabne : p0.2 ≠ [] := by
    have hg := hv p0.2 hp0l
    simp only [goodVocabTok, Bool.and_eq_true, Bool.not_eq_true'] at hg
    simpa using hg.1
  have hlabgood : ∀ c ∈ p0.2, goodChar c = true := by
    intro c hc
    have hg := hv p0.2 hp0l
    simp only [goodVocabTok, Bool.and_eq_true, List.all_eq_true] at hg
    exact hg.2 c hc
  have hsne : p0.1 ≠ [] := by
    intro hnil
    rw [hnil] at hp0
    simp at hp0
    omega
  -- the dimension count of the first line
  have hsplit : pySplit ':' (joinSep ':' (p0.1 ++ [p0.2])) = p0.1 ++ [p0.2] := by
    apply pySplit_joinSep
    · simp
    · intro p hp hmem
      rcases List.mem_append.mp hp with h1 | h2
      · have hg := hp0.2 p h1
        simp only [goodSeg, Bool.and_eq_true, List.all_eq_true] at hg
        exact (goodChar_ne ':' (hg.1.2 ':' hmem)).1 rfl
      · have hpl : p = p0.2 := by simpa using h2
        subst hpl
        exact (goodChar_ne ':' (hlabgood ':' hmem)).1 rfl
  -- metadata prefix: the five-line fold from the empty state
  have e4 : processLine repl.data
      { metadataStarted := true, hasProblemNameTag := true, hasTimestampsTag := true,
        hasUnivariateTag := true, timestamps := some false, lineNum := 3 }
      (classLabelLine vocab) =
      .ok { metadataStarted := true, hasProblemNameTag := true, hasTimestampsTag := true,
            hasUnivariateTag := true, hasClassLabelsTag := true, timestamps := some false,
            classLabels := some true, classLabelList := vocab, lineNum := 4 } :=
    processLine_classLabel repl.data _ vocab hvne hv rfl
  have hfold5 : (["@problemname x", "@timestamps false", "@univariate true",
      classLabelLine vocab, "@data"]).foldlM (processLine repl.data) {} =
      .ok { metadataStarted := true, dataStarted := true, hasProblemNameTag := true,
            hasTimestampsTag := true, hasUnivariateTag := true, hasClassLabelsTag := true,
            hasDataTag := true, timestamps := some false, classLabels := some true,
            classLabelList := vocab, lineNum := 5 } := by
    simp only [List.foldlM_cons, List.foldlM_nil]
    rw [show processLine repl.data {} "@problemname x" =
      .ok { metadataStarted := true, hasProblemNameTag := true, lineNum := 1 } from rfl]
    simp only [except_bind_ok]
    rw [show processLine repl.data
      { metadataStarted := true, hasProblemNameTag := true, lineNum := 1 }
      "@timestamps false" =
      .ok { metadataStarted := true, hasProblemNameTag := true, hasTimestampsTag := true,
            timestamps := some false, lineNum := 2 } from rfl]
    simp only [except_bind_ok]
    rw [show processLine repl.data
      { metadataStarted := true, hasProblemNameTag := true, hasTimestampsTag := true,
        timestamps := some false, lineNum := 2 } "@univariate true" =
      .ok { metadataStarted := true, hasProblemNameTag := true, hasTimestampsTag := true,
            hasUnivariateTag := true, timestamps := some false, lineNum := 3 } from rfl]
    simp only [except_bind_ok]
    rw [e4]
    simp only [except_bind_ok]
    rw [show processLine repl.data
      { metadataStarted := true, hasProblemNameTag := true, hasTimestampsTag := true,
        hasUnivariateTag := true, hasClassLabelsTag := true, timestamps := some false,
        classLabels := some true, classLabelList := vocab, lineNum := 4 } "@data" =
      .ok { metadataStarted := true, dataStarted := true, hasProblemNameTag := true,
            hasTimestampsTag := true, hasUnivariateTag := true, hasClassLabelsTag := true,
            hasDataTag := true, timestamps := some false, classLabels := some true,
            classLabelList := vocab, lineNum := 5 } from rfl]
    simp only [except_bind_ok]
    rfl
  -- the first data line freezes the dimension count
  have hw := processLine_plain repl.data
    { metadataStarted := true, dataStarted := true, hasProblemNameTag := true,
      hasTimestampsTag := true, hasUnivariateTag := true, hasClassLabelsTag := true,
      hasDataTag := true, timestamps := some false, classLabels := some true,
      classLabelList := vocab, lineNum := 5 }
    p0.1 p0.2 rfl rfl rfl rfl rfl rfl rfl rfl hp0.2 hsne hlabne hlabgood
  have hfc := processPlainLine_first true
    { metadataStarted := true, dataStarted := true, hasProblemNameTag := true,
      hasTimestampsTag := true, hasUnivariateTag := true, hasClassLabelsTag := true,
      hasDataTag := true, timestamps := some false, classLabels := some true,
      classLabelList := vocab, lineNum := 5 }
    (joinSep ':' (p0.1 ++ [p0.2])) rfl
  rw [hsplit] at hfc
  have hlen1 : (p0.1 ++ [p0.2]).length - (if true then 1 else 0) = D := by
    simp [hp0.1]
  rw [hlen1] at hfc
  obtain ⟨inst0, hpl0, hilen0, hicnt0⟩ := processPlainLine_ok
    { metadataStarted := true, dataStarted := true, hasProblemNameTag := true,
      hasTimestampsTag := true, hasUnivariateTag := true, hasClassLabelsTag := true,
      hasDataTag := true, timestamps := some false, classLabels := some true,
      classLabelList := vocab, numDimensions := some D,
      instanceList := List.replicate D [], isFirstCase := false, lineNum := 5 }
    p0.1 p0.2 D rfl rfl hp0.1 (by simp) hp0.2 hlabgood
  rw [hfc] at hw
  rw [show processPlainLine true
      { metadataStarted := true, dataStarted := true, hasProblemNameTag := true,
        hasTimestampsTag := true, hasUnivariateTag := true, hasClassLabelsTag := true,
        hasDataTag := true, timestamps := some false, classLabels := some true,
        classLabelList := vocab, numDimensions := some D,
        instanceList := List.replicate D [], isFirstCase := false, lineNum := 5 }
      (joinSep ':' (p0.1 ++ [p0.2])) =
      .ok { metadataStarted := true, dataStarted := true, hasProblemNameTag := true,
            hasTimestampsTag := true, hasUnivariateTag := true, hasClassLabelsTag := true,
            hasDataTag := true, timestamps := some false, classLabels := some true,
            classLabelList := vocab, numDimensions := some D,
            instanceList := inst0, isFirstCase := false, classValList := [p0.2],
            lineNum := 5 } from hpl0] at hw
  -- now fold the remaining data lines
  obtain ⟨st', hfoldr, g1, g2, g3, g4, g5, g6, g7, g8, g9, g10, g11, g12, gcnt, gcvl, gln⟩ :=
    dataLines_fold repl.data vocab hv D hD rest
      { metadataStarted := true, dataStarted := true, hasProblemNameTag := true,
        hasTimestampsTag := true, hasUnivariateTag := true, hasClassLabelsTag := true,
        hasDataTag := true, timestamps := some false, classLabels := some true,
        classLabelList := vocab, numDimensions := some D,
        instanceList := inst0, isFirstCase := false, classValList := [p0.2],
        lineNum := 6 }
      rfl rfl rfl rfl rfl rfl rfl rfl rfl rfl rfl hilen0
      (fun q hq => hsegs q (List.mem_cons_of_mem p0 hq))
      (fun q hq => hlab q (List.mem_cons_of_mem p0 hq))
  -- assemble the whole run
  have hrun : load_from_tsfile_to_dataframe
      (["@problemname x", "@timestamps false", "@univariate true", classLabelLine vocab,
        "@data"] ++ (p0 :: rest).map (fun p => plainDataLine p.1 p.2)) true repl =
      finalize true st' := by
    unfold load_from_tsfile_to_dataframe
    rw [List.foldlM_append, hfold5, except_bind_ok, List.map_cons, List.foldlM_cons, hw,
      except_bind_ok]
    rw [hfoldr]
  have gln2 : st'.lineNum = 6 + rest.length := gln
  have gcvl2 : st'.classValList = [p0.2] ++ rest.map (fun p => p.2) := gcvl
  have hine : st'.instanceList ≠ [] := by
    intro hx
    rw [hx] at g12
    simp at g12
    omega
  refine ⟨(List.range D).map (fun d => st'.instanceList.getD d []), st'.classValList,
    ?_, by simp, ?_, ?_, ?_⟩
  · rw [hrun]
    unfold finalize
    simp only [g1, g2, g3, g4, g5, g6, g7, g9, g11, gln2]
    rw [if_pos (by omega : 6 + rest.length ≠ 0)]
    simp [hine]
  · intro col hcol
    obtain ⟨d, hd, rfl⟩ := List.mem_map.mp hcol
    have hdD := List.mem_range.mp hd
    have h1 : (st'.instanceList.getD d []).length = (inst0.getD d []).length + rest.length :=
      gcnt d hdD
    have h2 : (inst0.getD d []).length =
        ((List.replicate D ([] : List Series)).getD d []).length + 1 := hicnt0 d hdD
    rw [getD_replicate_nil] at h2
    simp only [List.length_cons, List.length_nil] at h2 ⊢
    omega
  · rw [gcvl2]
    simp
  · intro l hl
    rw [gcvl2] at hl
    rcases List.mem_append.mp hl with h1 | h2
    · have : l = p0.2 := by simpa using h1
      subst this
      exact hp0l
    · obtain ⟨q, hq, rfl⟩ := List.mem_map.mp h2
      exact hlab q (List.mem_cons_of_mem p0 hq)

theorem claim_C2_witness :
    ∃ cols labs,
      load_from_tsfile_to_dataframe
        (["@problemname x", "@timestamps false", "@univariate true",
          classLabelLine [['a'], ['b']], "@data"] ++
          [([['1']], ['a'])].map (fun p => plainDataLine p.1 p.2)) true "0" =
        .ok (.xy cols labs) ∧
      cols.length = 1 ∧
      (∀ col ∈ cols, col.length = [([['1']], ['a'])].length) ∧
      labs.length = [([['1']], ['a'])].length ∧
      (∀ l ∈ labs, l ∈ [['a'], ['b']]) :=
  claim_C2_thm "0" [['a'], ['b']] [([['1']], ['a'])] 1
    (by decide) (by decide) (by decide) (by decide) (by decide) (by decide)
